import Mathlib

/-!
# Verification of the TasksBoardITV request-defense pipeline

Shallow embedding of the security layer of the TasksBoardITV task-manager:
the frontend sanitizers and pattern matchers (`src/lib/security.ts`), the
server-side sanitizer, SQL-injection detector and rate-limit configuration
(`server/security/security-middleware.js`), the file-upload validator
(`server/security/validators.js`), and the brute-force tracker and the
`/api/upload` route of `server/index.js`.

Strings are modelled as `List Char` (one entry per UTF-16 code unit of the
JavaScript string; the inputs of interest contain no surrogate pairs, so a
code unit corresponds to a character).  Timestamps are `Nat` milliseconds
(seconds for JWT claims).  Mutable maps keyed by strings become functions
`String → Option _` updated by pure state passing.
-/

namespace TasksBoard

/-! ## Character helpers shared by the embedded functions -/

/-- The character class of the JavaScript regex token `\s`, which is also the
set removed by `String.prototype.trim`: ASCII blanks, NBSP, the Unicode space
separators, the line separators and the BOM. -/
def isJsWs (c : Char) : Bool :=
  c = ' ' || c = '\t' || c = '\n' || c = Char.ofNat 11 || c = Char.ofNat 12 ||
  c = '\r' || c = Char.ofNat 0xa0 || c = Char.ofNat 0x1680 ||
  (0x2000 ≤ c.val && c.val ≤ 0x200a) || c = Char.ofNat 0x2028 ||
  c = Char.ofNat 0x2029 || c = Char.ofNat 0x202f || c = Char.ofNat 0x205f ||
  c = Char.ofNat 0x3000 || c = Char.ofNat 0xfeff

/-- The ASCII case table of `String.prototype.toLowerCase` (the embedded
patterns are built from ASCII letters, so this is the fragment they
exercise). -/
def lowerPairs : List (Char × Char) :=
  [('A', 'a'), ('B', 'b'), ('C', 'c'), ('D', 'd'), ('E', 'e'), ('F',
   'f'), ('G', 'g'), ('H', 'h'), ('I', 'i'), ('J', 'j'), ('K', 'k'),
   ('L', 'l'), ('M', 'm'), ('N', 'n'), ('O', 'o'), ('P', 'p'), ('Q',
   'q'), ('R', 'r'), ('S', 's'), ('T', 't'), ('U', 'u'), ('V', 'v'),
   ('W', 'w'), ('X', 'x'), ('Y', 'y'), ('Z', 'z')]

/-- ASCII lower-casing of one character: look the character up in the case
table, defaulting to the character itself. -/
def lowerChar (c : Char) : Char :=
  match lowerPairs.lookup c with
  | some l => l
  | none => c

/-- Lower-case a whole string. -/
def lowerStr (s : List Char) : List Char := s.map lowerChar

/-- Tests for the five dangerous characters (angle brackets, double and
single quote, ampersand) stripped by the frontend `sanitizeInput`. -/
def isDangerousChar (c : Char) : Bool :=
  c = '<' || c = '>' || c = '"' || c = Char.ofNat 39 || c = '&'

/-- Embeds `String.prototype.replace` with a single-character global
pattern and a fixed replacement string. -/
def replaceChar (t : Char) (r : List Char) : List Char → List Char
  | [] => []
  | c :: cs => if c = t then r ++ replaceChar t r cs else c :: replaceChar t r cs

/-- Does `p` hold of some suffix of the list (i.e. does a regex anchored at
some position match)? -/
def anySuffix (p : List Char → Bool) : List Char → Bool
  | [] => p []
  | c :: cs => p (c :: cs) || anySuffix p cs

/-- Substring test (`String.prototype.includes` / an unanchored literal
regex). -/
def containsSub (needle : List Char) (hay : List Char) : Bool :=
  anySuffix (fun r => needle.isPrefixOf r) hay

/-- Case-insensitive substring test (a literal regex with the `i` flag). -/
def ciContains (needle : List Char) (hay : List Char) : Bool :=
  containsSub (lowerStr needle) (lowerStr hay)

/-! ## Frontend sanitizers (`src/lib/security.ts`)

The function `sanitizeInput` is, on a string input, the pipeline: slice
to the length cap, strip the five dangerous characters, trim both ends,
collapse whitespace runs to single spaces. -/

/-- Embeds the left half of `trim`: drop leading whitespace. -/
def jsTrimLeft (s : List Char) : List Char := s.dropWhile isJsWs

/-- Embeds the right half of `trim`: drop trailing whitespace. -/
def jsTrimRight (s : List Char) : List Char :=
  (s.reverse.dropWhile isJsWs).reverse

/-- Embeds `String.prototype.trim`. -/
def jsTrim (s : List Char) : List Char := jsTrimRight (jsTrimLeft s)

/-- Embeds the whitespace-collapsing replace of the sanitizer: each
maximal whitespace run becomes one space.  The flag records whether the
scanner is inside a run whose space was already emitted. -/
def collapseWsAux : Bool → List Char → List Char
  | _, [] => []
  | inRun, c :: cs =>
    if isJsWs c then
      if inRun then collapseWsAux true cs else ' ' :: collapseWsAux true cs
    else c :: collapseWsAux false cs

/-- Embeds the whitespace-collapsing replace on a whole string. -/
def collapseWs (s : List Char) : List Char := collapseWsAux false s

/-- The string pipeline of the frontend `sanitizeInput` (security.ts 94-109),
after the non-empty-string guard. -/
def sanitizeInputStr (s : List Char) (maxLength : Nat) : List Char :=
  collapseWs (jsTrim ((s.take maxLength).filter (fun c => !isDangerousChar c)))

/-- A JavaScript runtime value as it can reach the frontend sanitizers, whose
TypeScript `string` annotation is not enforced at runtime. -/
inductive JSValue
  | null
  | undef
  | bool (b : Bool)
  | num (n : Int)
  | str (s : List Char)
  deriving DecidableEq

/-- JavaScript truthiness of the modelled values (`!input` tests falsiness). -/
def jsTruthy : JSValue → Bool
  | .null => false
  | .undef => false
  | .bool b => b
  | .num n => n ≠ 0
  | .str s => !s.isEmpty

/-- Embeds the JavaScript string type test on the modelled values. -/
def jsIsString : JSValue → Bool
  | .str _ => true
  | _ => false

/-- Embeds `sanitizeInput` (security.ts 94-109): empty strings and
non-strings map to the empty string; other strings go through
`sanitizeInputStr`. -/
def sanitizeInput (input : JSValue) (maxLength : Nat) : JSValue :=
  if !jsTruthy input || !jsIsString input then .str []
  else
    match input with
    | .str s => .str (sanitizeInputStr s maxLength)
    | _ => .str []

/-- The `maxLength` default of `sanitizeInput`. -/
def SANITIZE_DEFAULT_MAX_LENGTH : Nat := 1000

/-- Embeds `sanitizeHtml` (security.ts 6-19): guard, then the chain of
six replace calls escaping the ampersand, the angle brackets, both quote
characters and the slash. -/
def sanitizeHtml (input : JSValue) : JSValue :=
  if !jsTruthy input || !jsIsString input then .str []
  else
    match input with
    | .str s =>
      .str (replaceChar '/' ['&', '#', 'x', '2', 'F', ';']
             (replaceChar (Char.ofNat 39) ['&', '#', 'x', '2', '7', ';']
               (replaceChar '"' ['&', 'q', 'u', 'o', 't', ';']
                 (replaceChar '>' ['&', 'g', 't', ';']
                   (replaceChar '<' ['&', 'l', 't', ';']
                     (replaceChar '&' ['&', 'a', 'm', 'p', ';'] s))))))
    | _ => .str []

/-! ## Pattern matchers (`src/lib/security.ts` 114-165)

Each regex of `detectSuspiciousPatterns` becomes an executable existence
matcher: the function returns `true` exactly when the regex has a match in
the string.  `.` is the JavaScript dot without the `s` flag (anything but a
line terminator); laziness of `.*?` does not change match existence.  All
sixteen patterns carry the `i` flag, so matching runs over the lower-cased
string. -/

/-- A character matched by `.` in a JavaScript regex without the `s` flag. -/
def jsDot (c : Char) : Bool :=
  c ≠ '\n' && c ≠ '\r' && c ≠ Char.ofNat 0x2028 && c ≠ Char.ofNat 0x2029

/-- The character class `\w`. -/
def jsWordChar (c : Char) : Bool :=
  ('a' ≤ c && c ≤ 'z') || ('A' ≤ c && c ≤ 'Z') || ('0' ≤ c && c ≤ '9') || c = '_'

/-- After `<script[^>]*>` has been matched, scan `.*?<\/script>`: look for
`</script>` while consuming only dot characters. -/
def scriptSeekClose : List Char → Bool
  | [] => false
  | c :: cs =>
    List.isPrefixOf ['<', '/', 's', 'c', 'r', 'i', 'p', 't', '>'] (c :: cs) ||
      (jsDot c && scriptSeekClose cs)

/-- After `<script` has been matched, scan `[^>]*>` and continue with the
body: every character before the first `>` is consumed by `[^>]*`. -/
def scriptAttrs : List Char → Bool
  | [] => false
  | c :: cs => if c = '>' then scriptSeekClose cs else scriptAttrs cs

/-- Embeds the script-tag regex of pattern 1 on an already lower-cased
string. -/
def matchScriptTag (l : List Char) : Bool :=
  anySuffix
    (fun r =>
      List.isPrefixOf ['<', 's', 'c', 'r', 'i', 'p', 't'] r && scriptAttrs (r.drop 7)) l

/-- Matches optional whitespace followed by a required literal character. -/
def skipWsThenChar (t : Char) : List Char → Bool
  | [] => false
  | c :: cs => if c = t then true else if isJsWs c then skipWsThenChar t cs else false

/-- Embeds the inline-event-handler regex anchored at the current
position (on a lower-cased
string): `on`, one or more word characters, optional whitespace, `=`. -/
def onHandlerAt : List Char → Bool
  | 'o' :: 'n' :: c :: cs =>
    jsWordChar c && skipWsThenChar '=' (cs.dropWhile jsWordChar)
  | _ => false

/-- Embeds the inline-event-handler regex anywhere in a lower-cased
string. -/
def matchOnHandler (l : List Char) : Bool := anySuffix onHandlerAt l

/-- A fixed word followed by `\s*\(` (for `/expression\s*\(/i` and
`/url\s*\(/i`), anchored. -/
def wordThenParenAt (word : List Char) (r : List Char) : Bool :=
  word.isPrefixOf r && skipWsThenChar '(' (r.drop word.length)

/-- A fixed word, `\s+`, then a second fixed word (for `/drop\s+table/i`
and friends), anchored. -/
def wordWsWordAt (w1 w2 : List Char) (r : List Char) : Bool :=
  w1.isPrefixOf r &&
    match r.drop w1.length with
    | [] => false
    | c :: cs => isJsWs c && w2.isPrefixOf (cs.dropWhile isJsWs)

/-- Matches a first literal, an arbitrary dot stretch, then a second
literal: after the first literal, look for the second while consuming only
dot characters. -/
def seekAcrossDots (needle : List Char) : List Char → Bool
  | [] => false
  | c :: cs => needle.isPrefixOf (c :: cs) || (jsDot c && seekAcrossDots needle cs)

/-- A fixed word, `.*`, then a second fixed word (for `/union.*select/i`,
`/<%.*%>/i` and `/\$\{.*\}/i`), anchored. -/
def wordDotsWordAt (w1 w2 : List Char) (r : List Char) : Bool :=
  w1.isPrefixOf r && seekAcrossDots w2 (r.drop w1.length)

/-- Embeds `detectSuspiciousPatterns` (security.ts 114-139): the guard for empty or
non-string input, then the disjunction of the sixteen regexes tested over
the lower-cased string. -/
def detectSuspiciousPatterns (s : List Char) : Bool :=
  if s.isEmpty then false
  else
    let l := lowerStr s
    matchScriptTag l ||
    containsSub ['j', 'a', 'v', 'a', 's', 'c', 'r', 'i', 'p', 't', ':'] l ||
    matchOnHandler l ||
    containsSub ['d', 'a', 't', 'a', ':', 't', 'e', 'x', 't', '/', 'h', 't', 'm', 'l'] l ||
    containsSub ['v', 'b', 's', 'c', 'r', 'i', 'p', 't', ':'] l ||
    anySuffix (wordThenParenAt ['e', 'x', 'p', 'r', 'e', 's', 's', 'i', 'o', 'n']) l ||
    anySuffix (wordThenParenAt ['u', 'r', 'l']) l ||
    containsSub ['@', 'i', 'm', 'p', 'o', 'r', 't'] l ||
    (containsSub ['.', '.', '/', '.', '.', '/'] l ||
      containsSub ['.', '.', '\\', '.', '.', '\\'] l) ||
    anySuffix (wordDotsWordAt ['u', 'n', 'i', 'o', 'n'] ['s', 'e', 'l', 'e', 'c', 't']) l ||
    anySuffix (wordWsWordAt ['d', 'r', 'o', 'p'] ['t', 'a', 'b', 'l', 'e']) l ||
    anySuffix (wordWsWordAt ['i', 'n', 's', 'e', 'r', 't'] ['i', 'n', 't', 'o']) l ||
    anySuffix (wordWsWordAt ['d', 'e', 'l', 'e', 't', 'e'] ['f', 'r', 'o', 'm']) l ||
    containsSub ['<', '?', 'p', 'h', 'p'] l ||
    anySuffix (wordDotsWordAt ['<', '%'] ['%', '>']) l ||
    anySuffix (wordDotsWordAt ['$', Char.ofNat 123] [Char.ofNat 125]) l

/-- Matches an anchored literal pattern at the end of the string. -/
def endsWithSub (suffix : List Char) (hay : List Char) : Bool :=
  suffix.isSuffixOf hay

/-- Embeds `detectSuspiciousFilePatterns` (security.ts 144-165): traversal
sequences and `<script` / `javascript:` anywhere, plus nine `$`-anchored
dangerous extensions, all case-insensitive. -/
def detectSuspiciousFilePatterns (s : List Char) : Bool :=
  if s.isEmpty then false
  else
    let l := lowerStr s
    (containsSub ['.', '.', '/'] l || containsSub ['.', '.', '\\'] l) ||
    containsSub ['<', 's', 'c', 'r', 'i', 'p', 't'] l ||
    containsSub ['j', 'a', 'v', 'a', 's', 'c', 'r', 'i', 'p', 't', ':'] l ||
    endsWithSub ['.', 'e', 'x', 'e'] l ||
    endsWithSub ['.', 'b', 'a', 't'] l ||
    endsWithSub ['.', 'c', 'm', 'd'] l ||
    endsWithSub ['.', 's', 'c', 'r'] l ||
    endsWithSub ['.', 'v', 'b', 's'] l ||
    endsWithSub ['.', 'j', 's'] l ||
    endsWithSub ['.', 'p', 'h', 'p'] l ||
    endsWithSub ['.', 'a', 's', 'p'] l ||
    endsWithSub ['.', 'j', 's', 'p'] l

/-- Embeds `securityConfig.detectSQLInjection` (security-middleware.js 662-670):
three case-insensitive alternations — quote/comment/terminator characters,
SQL keywords, scripting tokens. -/
def detectSQLInjection (s : List Char) : Bool :=
  let l := lowerStr s
  (containsSub [Char.ofNat 39] l || containsSub ['-', '-'] l ||
    containsSub [';'] l || containsSub ['|'] l || containsSub ['*'] l) ||
  (containsSub ['u', 'n', 'i', 'o', 'n'] l || containsSub ['s', 'e', 'l', 'e', 'c', 't'] l ||
    containsSub ['i', 'n', 's', 'e', 'r', 't'] l || containsSub ['d', 'e', 'l', 'e', 't', 'e'] l ||
    containsSub ['u', 'p', 'd', 'a', 't', 'e'] l || containsSub ['d', 'r', 'o', 'p'] l ||
    containsSub ['c', 'r', 'e', 'a', 't', 'e'] l || containsSub ['a', 'l', 't', 'e', 'r'] l ||
    containsSub ['e', 'x', 'e', 'c'] l ||
    containsSub ['e', 'x', 'e', 'c', 'u', 't', 'e'] l) ||
  (containsSub ['s', 'c', 'r', 'i', 'p', 't'] l ||
    containsSub ['j', 'a', 'v', 'a', 's', 'c', 'r', 'i', 'p', 't'] l ||
    containsSub ['v', 'b', 's', 'c', 'r', 'i', 'p', 't'] l ||
    containsSub ['o', 'n', 'l', 'o', 'a', 'd'] l ||
    containsSub ['o', 'n', 'e', 'r', 'r', 'o', 'r'] l ||
    containsSub ['o', 'n', 'c', 'l', 'i', 'c', 'k'] l)
/-! ## Brute-force tracker (`server/index.js` 412-458, 702-734)

`bruteForceProtection` is a `Map` from `req.ip + ':' + req.path` to a
mutable record `{ attempts, lastAttempt }`; the login handler increments the
record in place on a failed credential check. -/

/-- One entry of the `bruteForceProtection` map. -/
structure BFRecord where
  attempts : Nat
  lastAttempt : Nat
  deriving DecidableEq

/-- The `bruteForceProtection` map. -/
def BFState : Type := String → Option BFRecord

/-- The window constant of the tracker: 15 minutes in milliseconds. -/
def BRUTE_FORCE_WINDOW : Nat := 15 * 60 * 1000

/-- The attempt cap of the tracker. -/
def MAX_ATTEMPTS : Nat := 5

/-- Store a record under a key. -/
def bfSet (st : BFState) (key : String) (r : BFRecord) : BFState :=
  fun k => if k = key then some r else st k

/-- Embeds `checkBruteForce` (index.js 417-447): insert a zero record on first
sight, reset the count once the window has elapsed since `lastAttempt`
(mutating the stored record), then allow iff the count is below
`MAX_ATTEMPTS`.  `true` means the request proceeds (`next()`); `false`
means the 429 response. -/
def checkBruteForce (st : BFState) (key : String) (now : Nat) : BFState × Bool :=
  let record :=
    match st key with
    | none => { attempts := 0, lastAttempt := now : BFRecord }
    | some r => r
  let record :=
    if now - record.lastAttempt > BRUTE_FORCE_WINDOW then
      { record with attempts := 0 }
    else record
  if record.attempts ≥ MAX_ATTEMPTS then (bfSet st key record, false)
  else (bfSet st key record, true)

/-- The failure branch of the login handler (index.js 720-734): if a record
exists for the key, increment `attempts` and refresh `lastAttempt`. -/
def recordLoginFailure (st : BFState) (key : String) (now : Nat) : BFState :=
  match st key with
  | none => st
  | some r => bfSet st key { attempts := r.attempts + 1, lastAttempt := now }

/-- One failed login request at time `now`: the route middleware
`checkBruteForce` runs first; if it lets the request through, the handler
records the credential failure. -/
def failedLoginAttempt (st : BFState) (key : String) (now : Nat) : BFState :=
  let (st', allowed) := checkBruteForce st key now
  if allowed then recordLoginFailure st' key now else st'

/-! ## JWT issuance and verification
(`server/security/security-middleware.js` 350-383)

`cryptoUtils.generateJWT` / `cryptoUtils.verifyJWT` wrap the external
`jsonwebtoken` library, which the specification treats as an external
cryptographic primitive. -/

/-- The payload the auth routes pass to `generateJWT`. -/
structure JwtPayload where
  id : String
  userId : String
  email : String
  role : String
  deriving DecidableEq

/-- The claims carried by an issued token: the payload plus the fields
`generateJWT` adds (`iat`, `jti`, `iss`) with the expiry `jsonwebtoken`
derives from `expiresIn`. -/
structure JwtClaims where
  id : String
  userId : String
  email : String
  role : String
  iat : Nat
  jti : String
  iss : String
  deriving DecidableEq

/-- The failure classes of `jsonwebtoken.verify`: `TokenExpiredError`, or a
`JsonWebTokenError` for a structurally bad token or a bad signature. -/
inductive JwtError
  | tokenExpired
  | malformed
  | invalidSignature
  deriving DecidableEq

/-- Modelled from the spec: an opaque signed bearer token of the external
`jsonwebtoken` primitive (spec §1, §3 AuthToken).  `wellFormed` records
whether the compact serialization has three base64url segments;
`signedWith` abstracts the HMAC-SHA256 signature as the secret that
produced it (signature verification succeeds exactly for that secret). -/
structure JwtToken where
  wellFormed : Bool
  claims : JwtClaims
  exp : Nat
  signedWith : String
  deriving DecidableEq

/-- Modelled from the spec: `jsonwebtoken.verify` checks the structure,
then the signature, then the `exp` claim against the clock (seconds), in
that order, failing closed with the first error. -/
def jwtVerify (t : JwtToken) (secret : String) (now : Nat) :
    Except JwtError JwtClaims :=
  if !t.wellFormed then .error .malformed
  else if t.signedWith ≠ secret then .error .invalidSignature
  else if t.exp ≤ now then .error .tokenExpired
  else .ok t.claims

/-- The `expiresIn` default of `generateJWT`: 24 hours in seconds. -/
def JWT_DEFAULT_EXPIRES_IN : Nat := 24 * 60 * 60

/-- Embeds `cryptoUtils.generateJWT` (security-middleware.js 350-367): spread the
payload, add `iat` (now, in seconds), a fresh `jti` and the fixed issuer,
and sign with the configured secret; `jsonwebtoken` derives
`exp = iat + expiresIn`. -/
def generateJWT (payload : JwtPayload) (secret : String) (now : Nat)
    (jti : String) : JwtToken :=
  { wellFormed := true
    claims :=
      { id := payload.id
        userId := payload.userId
        email := payload.email
        role := payload.role
        iat := now
        jti := jti
        iss := "bureau-task-manager" }
    exp := now + JWT_DEFAULT_EXPIRES_IN
    signedWith := secret }

/-- The outcomes of `cryptoUtils.verifyJWT`: the distinct token-expired
message versus the invalid-token message. -/
inductive VerifyJWTError
  | expired
  | invalid
  deriving DecidableEq

/-- Embeds `cryptoUtils.verifyJWT` (security-middleware.js 370-383): delegate to
`jsonwebtoken.verify` and translate `TokenExpiredError` to the expiry
message and `JsonWebTokenError` to the invalid-token message. -/
def verifyJWT (t : JwtToken) (secret : String) (now : Nat) :
    Except VerifyJWTError JwtClaims :=
  match jwtVerify t secret now with
  | .ok claims => .ok claims
  | .error .tokenExpired => .error .expired
  | .error .malformed => .error .invalid
  | .error .invalidSignature => .error .invalid
/-! ## Server-side sanitizer
(`server/security/security-middleware.js` 626-648)

`securityConfig.sanitizeInput` feeds string values through the external
`xss` filter with an empty whitelist and then through `validator.escape`. -/

/-- Modelled from the spec: the external `js-xss` filter configured with
`whiteList: {}` and `stripIgnoreTag: true`, as invoked by
`securityConfig.sanitizeInput`.  On input containing no tag delimiter `<`
the filter returns the string unchanged (its default escape touches only
tag structure); tag segments themselves are stripped per `stripIgnoreTag`.
The flag tracks whether the scanner is inside a `<...>` segment. -/
def xssFilterAux : Bool → List Char → List Char
  | _, [] => []
  | false, c :: cs =>
    if c = '<' then xssFilterAux true cs else c :: xssFilterAux false cs
  | true, c :: cs =>
    if c = '>' then xssFilterAux false cs else xssFilterAux true cs

/-- Modelled from the spec: the external `xss` call of
`securityConfig.sanitizeInput`. -/
def xssFilter (s : List Char) : List Char := xssFilterAux false s

/-- Modelled from the spec: `validator.escape` from the external
`validator` library — the chain of eight global replaces escaping the
ampersand, the two quote characters, the angle brackets, both slashes and
the backtick, in that order. -/
def validatorEscape (s : List Char) : List Char :=
  replaceChar (Char.ofNat 96) ['&', '#', '9', '6', ';']
    (replaceChar '\\' ['&', '#', 'x', '5', 'C', ';']
      (replaceChar '/' ['&', '#', 'x', '2', 'F', ';']
        (replaceChar '>' ['&', 'g', 't', ';']
          (replaceChar '<' ['&', 'l', 't', ';']
            (replaceChar (Char.ofNat 39) ['&', '#', 'x', '2', '7', ';']
              (replaceChar '"' ['&', 'q', 'u', 'o', 't', ';']
                (replaceChar '&' ['&', 'a', 'm', 'p', ';'] s)))))))

/-- The string branch of `securityConfig.sanitizeInput`
(security-middleware.js 626-637): the `xss` filter, then
`validator.escape`. -/
def serverSanitizeString (s : List Char) : List Char :=
  validatorEscape (xssFilter s)

/-! ## File-upload validator (`server/security/validators.js` 261-332)
and the `/api/upload` route (`server/index.js` 1333-1381) -/

/-- The metadata of one multer upload candidate. -/
structure FileCandidate where
  originalname : List Char
  mimetype : String
  size : Nat
  deriving DecidableEq

/-- The duck-typed `{ isValid, error }` result of every validator. -/
inductive ValidationResult
  | valid
  | invalid (error : String)
  deriving DecidableEq

/-- Finds the suffix starting at the last dot, for the extension
computation of the validator: the suffix includes the dot; when there is
no dot, the JavaScript lastIndexOf yields -1 and substring clamps it to 0,
returning the whole lower-cased name. -/
def lastDotSuffix : List Char → Option (List Char)
  | [] => none
  | c :: cs =>
    match lastDotSuffix cs with
    | some suffix => some suffix
    | none => if c = '.' then some (c :: cs) else none

/-- The extension computation of `validators.file.upload`
(validators.js 300). -/
def jsFileExtension (name : List Char) : List Char :=
  match lastDotSuffix (lowerStr name) with
  | some suffix => suffix
  | none => lowerStr name

/-- The MIME allow-list of `validators.file.upload`
(validators.js 275-297). -/
def uploadAllowedMimeTypes : List String :=
  ["image/jpeg", "image/jpg", "image/png", "image/gif", "image/bmp",
   "image/webp", "image/svg+xml", "image/tiff", "image/x-icon",
   "application/pdf",
   "application/msword",
   "application/vnd.openxmlformats-officedocument.wordprocessingml.document",
   "text/plain", "text/rtf",
   "application/vnd.oasis.opendocument.text",
   "application/vnd.ms-excel",
   "application/vnd.openxmlformats-officedocument.spreadsheetml.sheet",
   "application/vnd.oasis.opendocument.spreadsheet",
   "text/csv",
   "application/vnd.ms-powerpoint",
   "application/vnd.openxmlformats-officedocument.presentationml.presentation",
   "application/vnd.oasis.opendocument.presentation",
   "application/zip", "application/x-rar-compressed",
   "application/x-7z-compressed",
   "application/x-tar", "application/gzip"]

/-- The extension allow-list of `validators.file.upload`
(validators.js 301-307). -/
def uploadAllowedExtensions : List (List Char) :=
  [".jpg", ".jpeg", ".png", ".gif", ".bmp", ".webp", ".svg", ".tiff",
   ".ico", ".pdf", ".doc", ".docx", ".txt", ".rtf", ".odt", ".xls",
   ".xlsx", ".ods", ".csv", ".ppt", ".pptx", ".odp", ".zip", ".rar",
   ".7z", ".tar", ".gz"].map String.toList

/-- The dangerous-extension deny-list of `validators.file.upload`
(validators.js 319): eleven entries — `.js` is absent. -/
def suspiciousExtensions : List (List Char) :=
  [".exe", ".bat", ".cmd", ".scr", ".pif", ".com", ".vbs", ".jar",
   ".php", ".asp", ".jsp"].map String.toList

/-- The filename character class `/^[a-zA-Z0-9._\-\s()]+$/`
(validators.js 326). -/
def filenameCharOk (c : Char) : Bool :=
  ('a' ≤ c && c ≤ 'z') || ('A' ≤ c && c ≤ 'Z') || ('0' ≤ c && c ≤ '9') ||
  c = '.' || c = '_' || c = '-' || isJsWs c || c = '(' || c = ')'

/-- Embeds `validators.file.upload` (validators.js 263-331): size cap, MIME-type
or extension allow-list, name length, dangerous-extension deny-list, and
filename character set, in source order. -/
def validatorsFileUpload (file : Option FileCandidate) : ValidationResult :=
  match file with
  | none => .invalid "Файл не выбран"
  | some f =>
    if f.size > 10 * 1024 * 1024 then
      .invalid "Файл слишком большой (максимум 10MB)"
    else if !(uploadAllowedMimeTypes.contains f.mimetype) &&
        !(uploadAllowedExtensions.contains (jsFileExtension f.originalname)) then
      .invalid "Недопустимый тип файла"
    else if f.originalname.isEmpty || f.originalname.length > 255 then
      .invalid "Некорректное имя файла"
    else if suspiciousExtensions.contains (jsFileExtension f.originalname) then
      .invalid "Недопустимое расширение файла"
    else if !(f.originalname.all filenameCharOk) then
      .invalid "Имя файла содержит недопустимые символы"
    else .valid

/-- The methods the `validators.file` object actually exposes
(validators.js 261-332): only `upload`.  Accessing any other property
yields `undefined`, and calling it throws a `TypeError`. -/
def validatorsFileMethod (name : String) :
    Option (Option FileCandidate → ValidationResult) :=
  if name = "upload" then some validatorsFileUpload else none

/-- What the `/api/upload` handler sends back, and whether it deleted the
stored artifact before responding. -/
structure UploadOutcome where
  status : Nat
  artifactDeleted : Bool
  deriving DecidableEq

/-- The `/api/upload` handler body (index.js 1339-1380): reject a missing
file; call `validators.file.validateFile` — a property the validators
object does not define, so the call throws and the `catch` block answers
500 without touching the stored file.  Had the property existed, a failed
validation would delete the artifact and answer 400. -/
def uploadHandler (file : Option FileCandidate) : UploadOutcome :=
  match file with
  | none => { status := 400, artifactDeleted := false }
  | some f =>
    match validatorsFileMethod "validateFile" with
    | none => { status := 500, artifactDeleted := false }
    | some validate =>
      match validate (some f) with
      | .valid => { status := 200, artifactDeleted := false }
      | .invalid _ => { status := 400, artifactDeleted := true }

/-! ## General API rate limiter
(`server/security/security-middleware.js` 567-580, `server/index.js` 255)

`securityConfig.apiRateLimit` configures the external `express-rate-limit`
middleware: a 15-minute window, at most 100 requests per client key, and a
`skip` predicate exempting loopback and private-LAN addresses. -/

/-- One window counter of the store of the rate limiter. -/
structure RLRecord where
  hits : Nat
  windowStart : Nat
  deriving DecidableEq

/-- The keyed store of the rate limiter. -/
def RLState : Type := String → Option RLRecord

/-- The window of the general API limiter: 15 minutes. -/
def API_RATE_WINDOW_MS : Nat := 15 * 60 * 1000

/-- The cap of the general API limiter: 100 requests per window. -/
def API_RATE_MAX : Nat := 100

/-- Embeds `String.prototype.startsWith`, computed on the character
lists. -/
def strStartsWith (s pre : String) : Bool :=
  pre.toList.isPrefixOf s.toList

/-- The `skip` predicate of `apiRateLimit` (security-middleware.js
575-579): loopback and private-LAN addresses are exempt. -/
def apiRateLimitSkip (ip : String) : Bool :=
  ip = "127.0.0.1" || ip = "::1" ||
  strStartsWith ip "192.168." || strStartsWith ip "10."

/-- The verdict of the limiter on one request. -/
inductive RLDecision
  | allow
  | reject429
  deriving DecidableEq

/-- Modelled from the spec: the external `express-rate-limit` middleware as
configured by `apiRateLimit` — a fixed window anchored to first use
(spec §4.4, glossary): a skipped request is neither counted nor limited;
otherwise the counter (reset when the window has elapsed) is incremented
and the request is rejected with 429 once the count exceeds `max`. -/
def apiRateLimitStep (st : RLState) (ip : String) (now : Nat) :
    RLState × RLDecision :=
  if apiRateLimitSkip ip then (st, .allow)
  else
    let record :=
      match st ip with
      | none => { hits := 0, windowStart := now : RLRecord }
      | some r =>
        if now - r.windowStart ≥ API_RATE_WINDOW_MS then
          { hits := 0, windowStart := now }
        else r
    let record := { record with hits := record.hits + 1 }
    let st' := fun k => if k = ip then some record else st k
    if record.hits > API_RATE_MAX then (st', .reject429) else (st', .allow)

/-- A sequence of requests from one address, threaded through the store
of the limiter. -/
def runApiRequests (st : RLState) (ip : String) : List Nat → RLState
  | [] => st
  | t :: ts => runApiRequests (apiRateLimitStep st ip t).1 ip ts

/-! ## Purity of the matchers

The three detection functions read nothing but their argument (their
pattern tables are literals local to each call) and write nothing: in the
embedding each is a function of the string alone, threaded through an
explicit ambient world that it leaves untouched. -/

/-- The ambient state a middleware could observe or mutate (the log sink). -/
structure SecurityWorld where
  log : List String
  deriving DecidableEq

/-- Runs `detectSuspiciousPatterns` as a state transformer over the ambient
world: the source body references only its argument and local literals, so
the embedded call ignores and preserves the world. -/
def detectSuspiciousPatternsRun (w : SecurityWorld) (s : List Char) :
    Bool × SecurityWorld :=
  (detectSuspiciousPatterns s, w)

/-- Runs `detectSuspiciousFilePatterns` as a state transformer. -/
def detectSuspiciousFilePatternsRun (w : SecurityWorld) (s : List Char) :
    Bool × SecurityWorld :=
  (detectSuspiciousFilePatterns s, w)

/-- Runs `securityConfig.detectSQLInjection` as a state transformer. -/
def detectSQLInjectionRun (w : SecurityWorld) (s : List Char) :
    Bool × SecurityWorld :=
  (detectSQLInjection s, w)

example : validatorsFileUpload (some { originalname := "a.js".toList, mimetype := "image/png", size := 100 }) = .valid := by decide
example : validatorsFileUpload (some { originalname := "a.EXE".toList, mimetype := "image/png", size := 100 }) = .invalid "Недопустимое расширение файла" := by decide
example : validatorsFileUpload (some { originalname := "a.jpg".toList, mimetype := "image/jpeg", size := 1024 }) = .valid := by decide
example : uploadHandler (some { originalname := "a.jpg".toList, mimetype := "image/jpeg", size := 1024 }) = { status := 500, artifactDeleted := false } := by decide
example : jsFileExtension ("payload.php.jpg".toList) = ".jpg".toList := by decide
example : jsFileExtension ("noext".toList) = "noext".toList := by decide

/-! ## Claims -/

/-- Is the value a non-empty string? (The inputs the frontend sanitizers
accept for cleaning rather than mapping to the empty string.) -/
def isNonEmptyString : JSValue → Bool
  | .str s => !s.isEmpty
  | _ => false

/-- C10: for every input that is not a non-empty string (null, undefined,
the empty string, or a non-string value), the frontend sanitizers
`sanitizeInput` and `sanitizeHtml` return the empty string — they never
throw (both are total functions of the input) and never pass such a value
through unchanged. -/
theorem sanitizers_map_non_strings_to_empty (v : JSValue) (m : Nat)
    (h : isNonEmptyString v = false) :
    sanitizeInput v m = .str [] ∧ sanitizeHtml v = .str [] := by
  cases v <;>
    simp_all [isNonEmptyString, sanitizeInput, sanitizeHtml, jsTruthy, jsIsString]

/-- Witness for `sanitizers_map_non_strings_to_empty`, at `null`. -/
theorem sanitizers_map_non_strings_to_empty_witness :
    isNonEmptyString .null = false ∧
      (sanitizeInput .null 1000 = .str [] ∧ sanitizeHtml .null = .str []) :=
  ⟨by decide, sanitizers_map_non_strings_to_empty .null 1000 (by decide)⟩

/-- C2: token round-trip — for every payload (subject id, email, role),
verifying a token immediately after `generateJWT` issued it succeeds and
returns the original subject id and role unchanged. -/
theorem jwt_roundtrip (payload : JwtPayload) (secret : String) (now : Nat)
    (jti : String) :
    ∃ claims,
      verifyJWT (generateJWT payload secret now jti) secret now = .ok claims ∧
        claims.id = payload.id ∧ claims.role = payload.role := by
  refine
    ⟨{ id := payload.id, userId := payload.userId, email := payload.email
       role := payload.role, iat := now, jti := jti
       iss := "bureau-task-manager" },
      ?_, rfl, rfl⟩
  have hexp : ¬ (now + JWT_DEFAULT_EXPIRES_IN ≤ now) := by
    simp [JWT_DEFAULT_EXPIRES_IN]
  simp [verifyJWT, jwtVerify, generateJWT, hexp]

/-- A well-formed token with a lapsed expiry whose signature was made with
a different secret than the server verifies with. -/
def expiredTamperedToken : JwtToken :=
  { wellFormed := true
    claims :=
      { id := "u1", userId := "u1", email := "u1@example.com", role := "USER"
        iat := 0, jti := "jti-1", iss := "bureau-task-manager" }
    exp := 100
    signedWith := "attacker-secret" }

/-- Counterexample to C3 as stated: the expiry (100) of this token has passed at
time 200, yet verification with the server secret fails with the
invalid-token outcome (`jsonwebtoken` checks the signature before the
expiry), not with the expired outcome. -/
theorem expired_token_counterexample :
    expiredTamperedToken.exp ≤ 200 ∧
      verifyJWT expiredTamperedToken "server-secret" 200 = .error .invalid ∧
      VerifyJWTError.invalid ≠ VerifyJWTError.expired :=
  ⟨by decide, rfl, by decide⟩

/-- C3 (amended): for every well-formed token signed with the secret the
server verifies with, once the expiry time has passed verification fails
with the distinct Expired outcome and never with another reason. -/
theorem expired_signed_token_fails_expired (t : JwtToken) (secret : String)
    (now : Nat) (hw : t.wellFormed = true) (hs : t.signedWith = secret)
    (he : t.exp ≤ now) :
    verifyJWT t secret now = .error .expired := by
  simp [verifyJWT, jwtVerify, hw, hs, he]

/-- A well-formed, correctly signed token with a lapsed expiry. -/
def expiredSignedToken : JwtToken :=
  { wellFormed := true
    claims :=
      { id := "u1", userId := "u1", email := "u1@example.com", role := "USER"
        iat := 0, jti := "jti-2", iss := "bureau-task-manager" }
    exp := 86400
    signedWith := "server-secret" }

/-- Witness for `expired_signed_token_fails_expired`. -/
theorem expired_signed_token_fails_expired_witness :
    expiredSignedToken.exp ≤ 90000 ∧
      verifyJWT expiredSignedToken "server-secret" 90000 = .error .expired :=
  ⟨by decide,
    expired_signed_token_fails_expired expiredSignedToken "server-secret" 90000
      rfl rfl (by decide)⟩

/-- C9: the three pattern matchers are pure, total functions — run over an
explicit ambient world, the result of each depends only on the input
string (two evaluations under different worlds agree), and the world is
left untouched (no I/O, no exception channel: the result type is `Bool`). -/
theorem matchers_pure (w w2 : SecurityWorld) (s : List Char) :
    ((detectSuspiciousPatternsRun w s).1 = (detectSuspiciousPatternsRun w2 s).1 ∧
      (detectSuspiciousPatternsRun w s).2 = w) ∧
    ((detectSuspiciousFilePatternsRun w s).1 = (detectSuspiciousFilePatternsRun w2 s).1 ∧
      (detectSuspiciousFilePatternsRun w s).2 = w) ∧
    ((detectSQLInjectionRun w s).1 = (detectSQLInjectionRun w2 s).1 ∧
      (detectSQLInjectionRun w s).2 = w) :=
  ⟨⟨rfl, rfl⟩, ⟨rfl, rfl⟩, ⟨rfl, rfl⟩⟩

/-- A file whose post-write validation would fail (its name is outside the
allowed character set), as stored by multer (its extension and MIME type
pass the pre-write filters). -/
def cyrillicNamedFile : FileCandidate :=
  { originalname := "отчёт.pdf".toList
    mimetype := "application/pdf"
    size := 1024 }

/-- C7: the `/api/upload` handler calls `validators.file.validateFile`, a
property the validators module does not define (it defines
`validators.file.upload`); the call throws, the catch block answers 500,
and the stored artifact is never deleted.  At the concrete failing input —
a stored file whose name fails the post-write character-set check — the
intended validator rejects, yet the handler returns 500 without cleanup;
moreover every upload reaching the handler with a file gets the same 500
and no cleanup, so the claimed delete-then-400 path is unreachable. -/
theorem upload_rejection_leaves_artifact :
    validatorsFileUpload (some cyrillicNamedFile) =
      .invalid "Имя файла содержит недопустимые символы" ∧
    uploadHandler (some cyrillicNamedFile) =
      { status := 500, artifactDeleted := false } ∧
    ∀ f : FileCandidate,
      uploadHandler (some f) = { status := 500, artifactDeleted := false } := by
  refine ⟨by decide, by decide, fun f => ?_⟩
  simp [uploadHandler, validatorsFileMethod]


/-- The upload candidate refuting C6: its final extension is `.js` — an
entry of the deny-list the claim states — and its declared MIME type is on
the allow-list. -/
def jsNamedFile : FileCandidate :=
  { originalname := "a.js".toList
    mimetype := "image/png"
    size := 100 }

/-- Counterexample to C6 as stated: the deny-list of
`validators.file.upload` does not contain `.js` (it has eleven entries,
not the twelve the claim lists), and the candidate `a.js` with an
allow-listed declared MIME type is accepted even though its final
extension is `.js`. -/
theorem dangerous_extension_counterexample :
    jsFileExtension jsNamedFile.originalname = ".js".toList ∧
      suspiciousExtensions.contains (".js".toList) = false ∧
      validatorsFileUpload (some jsNamedFile) = .valid := by
  decide

/-- C6 (amended): the server deny-list is the fixed eleven-entry list
`.exe,.bat,.cmd,.scr,.pif,.com,.vbs,.jar,.php,.asp,.jsp` — without `.js` —
compared case-insensitively against the final extension of the file, and every
upload candidate whose final extension is in that list is rejected by
`validators.file.upload`. -/
theorem deny_listed_extension_rejected (f : FileCandidate)
    (h : suspiciousExtensions.contains (jsFileExtension f.originalname) = true) :
    validatorsFileUpload (some f) ≠ .valid := by
  intro hv
  simp only [validatorsFileUpload, h] at hv
  split at hv
  · exact ValidationResult.noConfusion hv
  · split at hv
    · exact ValidationResult.noConfusion hv
    · split at hv
      · exact ValidationResult.noConfusion hv
      · exact ValidationResult.noConfusion hv

/-- Witness for `deny_listed_extension_rejected`: an upper-case `.EXE`
candidate is deny-listed and rejected. -/
theorem deny_listed_extension_rejected_witness :
    suspiciousExtensions.contains
        (jsFileExtension ("virus.EXE".toList)) = true ∧
      validatorsFileUpload
          (some { originalname := "virus.EXE".toList, mimetype := "image/png"
                  size := 100 }) ≠ .valid :=
  ⟨by decide,
    deny_listed_extension_rejected
      { originalname := "virus.EXE".toList, mimetype := "image/png"
        size := 100 }
      (by decide)⟩

/-- A failed login against a key with no record yet: the route middleware
inserts a zero record and the handler bumps it to one failure stamped with
the attempt time. -/
theorem failedLoginAttempt_fresh (st : BFState) (key : String) (now : Nat)
    (hrec : st key = none) :
    failedLoginAttempt st key now key = some { attempts := 1, lastAttempt := now } := by
  simp [failedLoginAttempt, checkBruteForce, recordLoginFailure, bfSet, hrec,
    MAX_ATTEMPTS]

/-- A failed login within the window of the previous failure: no reset
fires, the check passes while the count is below the maximum, and the
handler increments the count and refreshes the stamp. -/
theorem failedLoginAttempt_step (st : BFState) (key : String)
    (n last now : Nat) (hrec : st key = some { attempts := n, lastAttempt := last })
    (hn : n < MAX_ATTEMPTS) (_hle : last ≤ now)
    (hwin : now - last ≤ BRUTE_FORCE_WINDOW) :
    failedLoginAttempt st key now key = some { attempts := n + 1, lastAttempt := now } := by
  have hreset : ¬ (now - last > BRUTE_FORCE_WINDOW) := by omega
  have hmax : ¬ (n ≥ MAX_ATTEMPTS) := by omega
  simp [failedLoginAttempt, checkBruteForce, recordLoginFailure, bfSet, hrec,
    hreset, hmax]

/-- C1: brute-force lockout — for a key with no prior record, five failed
login attempts whose consecutive gaps stay inside the 15-minute window lock
the key: a sixth check still inside the window of the last failure denies
(the 429 branch), while a check after the window has elapsed since the last
recorded failure resets the stored count to 0 and allows the request. -/
theorem brute_force_lockout (key : String) (t1 t2 t3 t4 t5 t6 t7 : Nat)
    (h12 : t1 ≤ t2) (h23 : t2 ≤ t3) (h34 : t3 ≤ t4) (h45 : t4 ≤ t5)
    (g12 : t2 - t1 ≤ BRUTE_FORCE_WINDOW) (g23 : t3 - t2 ≤ BRUTE_FORCE_WINDOW)
    (g34 : t4 - t3 ≤ BRUTE_FORCE_WINDOW) (g45 : t5 - t4 ≤ BRUTE_FORCE_WINDOW)
    (_h56 : t5 ≤ t6) (g56 : t6 - t5 ≤ BRUTE_FORCE_WINDOW)
    (g57 : t7 - t5 > BRUTE_FORCE_WINDOW) :
    (checkBruteForce
        (failedLoginAttempt
          (failedLoginAttempt
            (failedLoginAttempt
              (failedLoginAttempt
                (failedLoginAttempt (fun _ => none) key t1) key t2) key t3)
            key t4) key t5) key t6).2 = false ∧
    (checkBruteForce
        (failedLoginAttempt
          (failedLoginAttempt
            (failedLoginAttempt
              (failedLoginAttempt
                (failedLoginAttempt (fun _ => none) key t1) key t2) key t3)
            key t4) key t5) key t7).2 = true ∧
    (checkBruteForce
        (failedLoginAttempt
          (failedLoginAttempt
            (failedLoginAttempt
              (failedLoginAttempt
                (failedLoginAttempt (fun _ => none) key t1) key t2) key t3)
            key t4) key t5) key t7).1 key =
      some { attempts := 0, lastAttempt := t5 } := by
  have hlt : ∀ k : Nat, k < 5 → k < MAX_ATTEMPTS := by
    intro k hk
    simpa [MAX_ATTEMPTS] using hk
  have s1 := failedLoginAttempt_fresh (fun _ => none) key t1 rfl
  have s2 := failedLoginAttempt_step _ key 1 t1 t2 s1 (hlt 1 (by omega)) h12 g12
  have s3 := failedLoginAttempt_step _ key 2 t2 t3 s2 (hlt 2 (by omega)) h23 g23
  have s4 := failedLoginAttempt_step _ key 3 t3 t4 s3 (hlt 3 (by omega)) h34 g34
  have s5 := failedLoginAttempt_step _ key 4 t4 t5 s4 (hlt 4 (by omega)) h45 g45
  have hreset6 : ¬ (t6 - t5 > BRUTE_FORCE_WINDOW) := by omega
  have hmax : (5 : Nat) ≥ MAX_ATTEMPTS := by simp [MAX_ATTEMPTS]
  refine ⟨?_, ?_, ?_⟩
  · simp [checkBruteForce, s5, hreset6, hmax]
  · simp [checkBruteForce, s5, g57, MAX_ATTEMPTS]
  · simp [checkBruteForce, s5, g57, MAX_ATTEMPTS, bfSet]

/-- Witness for `brute_force_lockout`: five failures at one-millisecond
spacing lock the key at time 5; a check at time 1 000 000 (past the window
since the last failure at 4) resets and allows. -/
theorem brute_force_lockout_witness :
    (4 : Nat) ≤ 5 ∧ (1000000 : Nat) - 4 > BRUTE_FORCE_WINDOW ∧
      ((checkBruteForce
          (failedLoginAttempt
            (failedLoginAttempt
              (failedLoginAttempt
                (failedLoginAttempt
                  (failedLoginAttempt (fun _ => none) "10.0.0.5:/api/auth/login" 0)
                  "10.0.0.5:/api/auth/login" 1)
                "10.0.0.5:/api/auth/login" 2)
              "10.0.0.5:/api/auth/login" 3)
            "10.0.0.5:/api/auth/login" 4) "10.0.0.5:/api/auth/login" 5).2 = false ∧
        (checkBruteForce
            (failedLoginAttempt
              (failedLoginAttempt
                (failedLoginAttempt
                  (failedLoginAttempt
                    (failedLoginAttempt (fun _ => none) "10.0.0.5:/api/auth/login" 0)
                    "10.0.0.5:/api/auth/login" 1)
                  "10.0.0.5:/api/auth/login" 2)
                "10.0.0.5:/api/auth/login" 3)
              "10.0.0.5:/api/auth/login" 4) "10.0.0.5:/api/auth/login" 1000000).2 = true ∧
        (checkBruteForce
            (failedLoginAttempt
              (failedLoginAttempt
                (failedLoginAttempt
                  (failedLoginAttempt
                    (failedLoginAttempt (fun _ => none) "10.0.0.5:/api/auth/login" 0)
                    "10.0.0.5:/api/auth/login" 1)
                  "10.0.0.5:/api/auth/login" 2)
                "10.0.0.5:/api/auth/login" 3)
              "10.0.0.5:/api/auth/login" 4) "10.0.0.5:/api/auth/login" 1000000).1
            "10.0.0.5:/api/auth/login" =
          some { attempts := 0, lastAttempt := 4 }) :=
  ⟨by decide, by decide,
    brute_force_lockout "10.0.0.5:/api/auth/login" 0 1 2 3 4 5 1000000
      (by decide) (by decide) (by decide) (by decide)
      (by decide) (by decide) (by decide) (by decide)
      (by decide) (by decide) (by decide)⟩

/-- One non-exempt request against a fresh key opens a window anchored at
the request time with one hit. -/
theorem apiRateLimitStep_fresh (st : RLState) (ip : String) (now : Nat)
    (hskip : apiRateLimitSkip ip = false) (hrec : st ip = none) :
    (apiRateLimitStep st ip now).1 ip = some { hits := 1, windowStart := now } := by
  simp [apiRateLimitStep, hskip, hrec, API_RATE_MAX]

/-- Requests inside the open window accumulate: each one adds a hit and
leaves the anchor unchanged. -/
theorem runApiRequests_counts (ip : String) (hskip : apiRateLimitSkip ip = false)
    (times : List Nat) :
    ∀ (st : RLState) (k w : Nat), st ip = some { hits := k, windowStart := w } →
      (∀ t ∈ times, t - w < API_RATE_WINDOW_MS) →
      runApiRequests st ip times ip =
        some { hits := k + times.length, windowStart := w } := by
  induction times with
  | nil => intro st k w hrec _; simpa [runApiRequests] using hrec
  | cons t ts ih =>
    intro st k w hrec hwin
    have hexp : ¬ (t - w ≥ API_RATE_WINDOW_MS) := by
      have := hwin t (by simp)
      omega
    have hstep : (apiRateLimitStep st ip t).1 ip =
        some { hits := k + 1, windowStart := w } := by
      simp [apiRateLimitStep, hskip, hrec, hexp]
      split <;> simp [RLState]
    have := ih (apiRateLimitStep st ip t).1 (k + 1) w hstep
      (fun u hu => hwin u (by simp [hu]))
    simpa [runApiRequests, Nat.add_assoc, Nat.add_comm, Nat.add_left_comm] using this

/-- C8: general API rate limiting — starting from a fresh store, after 100
requests from a non-exempt address all inside the 15-minute window of the
first one, the 101st request inside that window is rejected with the 429
decision; and a request from the loopback address `127.0.0.1` is skipped:
it is allowed and the store is left untouched, so it never counts toward
the limit. -/
theorem api_rate_limit_101st_rejected (ip : String) (st0 : RLState)
    (t1 : Nat) (rest : List Nat) (tReq : Nat)
    (hskip : apiRateLimitSkip ip = false) (hfresh : st0 ip = none)
    (hlen : rest.length = 99)
    (hwin : ∀ t ∈ rest, t - t1 < API_RATE_WINDOW_MS)
    (hreqwin : tReq - t1 < API_RATE_WINDOW_MS) :
    (apiRateLimitStep (runApiRequests st0 ip (t1 :: rest)) ip tReq).2 =
        .reject429 ∧
      ∀ (st : RLState) (now : Nat),
        apiRateLimitStep st "127.0.0.1" now = (st, .allow) := by
  constructor
  · have h1 := apiRateLimitStep_fresh st0 ip t1 hskip hfresh
    have hfull : runApiRequests st0 ip (t1 :: rest) ip =
        some { hits := 100, windowStart := t1 } := by
      have := runApiRequests_counts ip hskip rest
        (apiRateLimitStep st0 ip t1).1 1 t1 h1 hwin
      simpa [runApiRequests, hlen] using this
    have hexp : ¬ (tReq - t1 ≥ API_RATE_WINDOW_MS) := by omega
    simp [apiRateLimitStep, hskip, hfull, hexp, API_RATE_MAX]
  · intro st now
    simp [apiRateLimitStep, apiRateLimitSkip]

/-- Witness for `api_rate_limit_101st_rejected`: one hundred requests at
time 0 from a public address, then the 101st, also at time 0. -/
theorem api_rate_limit_101st_rejected_witness :
    apiRateLimitSkip "203.0.113.7" = false ∧
      ((apiRateLimitStep
            (runApiRequests (fun _ => none) "203.0.113.7"
              (0 :: List.replicate 99 0)) "203.0.113.7" 0).2 = .reject429 ∧
        ∀ (st : RLState) (now : Nat),
          apiRateLimitStep st "127.0.0.1" now = (st, .allow)) :=
  ⟨by decide,
    api_rate_limit_101st_rejected "203.0.113.7" (fun _ => none) 0
      (List.replicate 99 0) 0 (by decide) rfl (by decide)
      (by decide) (by decide)⟩

/-- A match found in a suffix is found in the whole string. -/
theorem anySuffix_append (p : List Char → Bool) (xs ys : List Char)
    (h : anySuffix p ys = true) : anySuffix p (xs ++ ys) = true := by
  induction xs with
  | nil => simpa using h
  | cons c cs ih => simp [anySuffix, ih]

/-- A successful association-list lookup returns one of the stored
values. -/
theorem lookup_mem_snd {α β : Type} [BEq α] (ps : List (α × β)) (a : α)
    (b : β) (h : ps.lookup a = some b) : b ∈ ps.map Prod.snd := by
  induction ps with
  | nil => simp [List.lookup] at h
  | cons p ps ih =>
    by_cases hpa : (a == p.fst) = true
    · simp [List.lookup, hpa] at h
      simp [h]
    · simp only [List.lookup, hpa] at h
      simp [ih h]

/-- Lower-casing never turns a dot character into a line terminator. -/
theorem jsDot_lowerChar (c : Char) (h : jsDot c = true) :
    jsDot (lowerChar c) = true := by
  rcases hl : lowerPairs.lookup c with _ | l
  · simpa [lowerChar, hl] using h
  · have hall : ∀ x ∈ lowerPairs.map Prod.snd, jsDot x = true := by decide
    simpa [lowerChar, hl] using hall l (lookup_mem_snd _ _ _ hl)

/-- The body scan of the script-tag matcher succeeds once the closing
`</script>` follows a stretch of dot characters. -/
theorem scriptSeekClose_through (q : List Char)
    (hq : ∀ c ∈ q, jsDot c = true) (tail : List Char) :
    scriptSeekClose
      (q ++ ['<', '/', 's', 'c', 'r', 'i', 'p', 't', '>'] ++ tail) = true := by
  induction q with
  | nil => simp [scriptSeekClose, List.isPrefixOf]
  | cons c q' ih =>
    have hc : jsDot c = true := hq c (by simp)
    have ih' := ih (fun d hd => hq d (by simp [hd]))
    simp only [List.cons_append, scriptSeekClose, hc, Bool.true_and,
      Bool.or_eq_true]
    right
    simpa using ih'

/-- Counterexample to C5 as stated: the string `<script>` contains the
substring `<script>`, but `detectSuspiciousPatterns` returns `false` on it
— the script-tag regex also demands a closing `</script>`, and no other
pattern fires. -/
theorem script_substring_counterexample :
    containsSub ("<script>".toList) ("<script>".toList) = true ∧
      detectSuspiciousPatterns ("<script>".toList) = false := by
  decide

/-- C5 (amended): every string containing an opening `<script>` tag that is
later closed by `</script>` with no line terminator in between is flagged
by the XSS pattern matcher. -/
theorem script_element_detected (p q r : List Char)
    (hq : ∀ c ∈ q, jsDot c = true) :
    detectSuspiciousPatterns
      (p ++ "<script>".toList ++ q ++ "</script>".toList ++ r) = true := by
  have hne : (p ++ "<script>".toList ++ q ++ "</script>".toList ++ r).isEmpty
      = false := by
    cases p <;> simp [List.isEmpty]
  have hqlow : ∀ c ∈ lowerStr q, jsDot c = true := by
    intro c hc
    rcases List.mem_map.mp hc with ⟨d, hd, rfl⟩
    exact jsDot_lowerChar d (hq d hd)
  have hscript :
      matchScriptTag
        (lowerStr (p ++ "<script>".toList ++ q ++ "</script>".toList ++ r))
        = true := by
    have hsplit :
        lowerStr (p ++ "<script>".toList ++ q ++ "</script>".toList ++ r) =
          lowerStr p ++
            ("<script>".toList ++ (lowerStr q ++
              ("</script>".toList ++ lowerStr r))) := by
      simp [lowerStr]
      decide
    rw [hsplit]
    apply anySuffix_append
    have hclose := scriptSeekClose_through (lowerStr q) hqlow (lowerStr r)
    simp [matchScriptTag, anySuffix, List.isPrefixOf, scriptAttrs]
    exact Or.inl (by simpa using hclose)
  simp only [detectSuspiciousPatterns, hne, Bool.false_eq_true, if_false,
    Bool.if_false_left, Bool.or_eq_true, hscript, true_or]

/-- Witness for `script_element_detected`: a complete script element inside
ordinary text is flagged. -/
theorem script_element_detected_witness :
    (∀ c ∈ ("alert(1)".toList), jsDot c = true) ∧
      detectSuspiciousPatterns
        ("ab".toList ++ "<script>".toList ++ "alert(1)".toList ++
          "</script>".toList ++ "cd".toList) = true :=
  ⟨by decide,
    script_element_detected ("ab".toList) ("alert(1)".toList) ("cd".toList)
      (by decide)⟩

/-! ## Idempotence of the frontend sanitizer (toward C4)

The pipeline output is characterized by: length within the cap, no
dangerous characters, every whitespace character a single space, no two
adjacent whitespace characters, and non-whitespace ends.  Such strings are
fixed points of every pipeline stage. -/

/-- Collapsing whitespace never lengthens a string. -/
theorem collapseWsAux_length (l : List Char) :
    ∀ b, (collapseWsAux b l).length ≤ l.length := by
  induction l with
  | nil => intro b; simp [collapseWsAux]
  | cons a as ih =>
    intro b
    by_cases hws : isJsWs a = true
    · cases b with
      | true =>
        rw [show collapseWsAux true (a :: as) = collapseWsAux true as from by
          simp [collapseWsAux, hws]]
        exact Nat.le_succ_of_le (ih true)
      | false =>
        rw [show collapseWsAux false (a :: as) = ' ' :: collapseWsAux true as from by
          simp [collapseWsAux, hws]]
        simpa using ih true
    · rw [show collapseWsAux b (a :: as) = a :: collapseWsAux false as from by
        simp [collapseWsAux, hws]]
      simpa using ih false

/-- Every character the collapse emits is either the space standing for a
run or a non-whitespace character of the input. -/
theorem mem_collapseWsAux (l : List Char) :
    ∀ b c, c ∈ collapseWsAux b l → c = ' ' ∨ (c ∈ l ∧ isJsWs c = false) := by
  induction l with
  | nil => intro b c h; simp [collapseWsAux] at h
  | cons a as ih =>
    intro b c h
    by_cases hws : isJsWs a = true
    · cases b with
      | true =>
        rw [show collapseWsAux true (a :: as) = collapseWsAux true as from by
          simp [collapseWsAux, hws]] at h
        rcases ih true c h with h1 | ⟨h2, h3⟩
        · exact Or.inl h1
        · exact Or.inr ⟨List.mem_cons_of_mem _ h2, h3⟩
      | false =>
        rw [show collapseWsAux false (a :: as) = ' ' :: collapseWsAux true as from by
          simp [collapseWsAux, hws]] at h
        rcases List.mem_cons.mp h with h1 | h1
        · exact Or.inl h1
        · rcases ih true c h1 with h2 | ⟨h2, h3⟩
          · exact Or.inl h2
          · exact Or.inr ⟨List.mem_cons_of_mem _ h2, h3⟩
    · rw [show collapseWsAux b (a :: as) = a :: collapseWsAux false as from by
        simp [collapseWsAux, hws]] at h
      rcases List.mem_cons.mp h with h1 | h1
      · subst h1
        exact Or.inr ⟨List.mem_cons_self _ _, by simpa using hws⟩
      · rcases ih false c h1 with h2 | ⟨h2, h3⟩
        · exact Or.inl h2
        · exact Or.inr ⟨List.mem_cons_of_mem _ h2, h3⟩

/-- The first character emitted while a run is open is never whitespace. -/
theorem collapseWsAux_head_true (l : List Char) :
    ∀ c, (collapseWsAux true l).head? = some c → isJsWs c = false := by
  induction l with
  | nil => intro c h; simp [collapseWsAux] at h
  | cons a as ih =>
    intro c h
    by_cases hws : isJsWs a = true
    · rw [show collapseWsAux true (a :: as) = collapseWsAux true as from by
        simp [collapseWsAux, hws]] at h
      exact ih c h
    · rw [show collapseWsAux true (a :: as) = a :: collapseWsAux false as from by
        simp [collapseWsAux, hws], List.head?_cons] at h
      obtain rfl := Option.some.inj h
      simpa using hws

/-- Two adjacent whitespace characters never survive the collapse. -/
def noWsPair (a b : Char) : Prop := isJsWs a = true → isJsWs b = false

/-- The collapse output carries no two adjacent whitespace characters. -/
theorem chain_collapseWsAux (l : List Char) :
    ∀ b, List.Chain' noWsPair (collapseWsAux b l) := by
  induction l with
  | nil => intro b; simp [collapseWsAux]
  | cons a as ih =>
    intro b
    by_cases hws : isJsWs a = true
    · cases b with
      | true =>
        rw [show collapseWsAux true (a :: as) = collapseWsAux true as from by
          simp [collapseWsAux, hws]]
        exact ih true
      | false =>
        rw [show collapseWsAux false (a :: as) = ' ' :: collapseWsAux true as from by
          simp [collapseWsAux, hws]]
        refine List.chain'_cons'.mpr ⟨?_, ih true⟩
        intro d hd
        exact fun _ => collapseWsAux_head_true as d (Option.mem_def.mp hd)
    · rw [show collapseWsAux b (a :: as) = a :: collapseWsAux false as from by
        simp [collapseWsAux, hws]]
      refine List.chain'_cons'.mpr ⟨?_, ih false⟩
      intro d _
      exact fun hwa => absurd hwa hws

/-- The last element of a list ignores the head when the tail is
non-empty. -/
theorem getLast?_cons_of_ne_nil {α : Type} (a : α) (l : List α) (h : l ≠ []) :
    (a :: l).getLast? = l.getLast? := by
  cases l with
  | nil => exact absurd rfl h
  | cons x xs => exact List.getLast?_cons_cons

/-- When the input ends in a non-whitespace character, the collapse output
is non-empty and ends in a non-whitespace character. -/
theorem collapseWsAux_getLast (l : List Char) :
    ∀ (b : Bool) (c : Char), l.getLast? = some c → isJsWs c = false →
      ∃ d, (collapseWsAux b l).getLast? = some d ∧ isJsWs d = false := by
  induction l with
  | nil => intro b c h _; simp at h
  | cons a as ih =>
    intro b c h hc
    cases as with
    | nil =>
      rw [List.getLast?_singleton] at h
      obtain rfl := Option.some.inj h
      refine ⟨a, ?_, hc⟩
      have hone : collapseWsAux b [a] = [a] := by
        cases b <;> simp [collapseWsAux, hc]
      rw [hone, List.getLast?_singleton]
    | cons a2 as2 =>
      have h2 : (a2 :: as2).getLast? = some c := by
        rw [List.getLast?_cons_cons] at h
        exact h
      by_cases hws : isJsWs a = true
      · cases b with
        | true =>
          rw [show collapseWsAux true (a :: a2 :: as2) =
              collapseWsAux true (a2 :: as2) from by simp [collapseWsAux, hws]]
          exact ih true c h2 hc
        | false =>
          rw [show collapseWsAux false (a :: a2 :: as2) =
              ' ' :: collapseWsAux true (a2 :: as2) from by
            simp [collapseWsAux, hws]]
          obtain ⟨d, hd, hdw⟩ := ih true c h2 hc
          refine ⟨d, ?_, hdw⟩
          have hne : collapseWsAux true (a2 :: as2) ≠ [] := by
            intro hnil
            rw [hnil] at hd
            simp at hd
          rw [getLast?_cons_of_ne_nil _ _ hne]
          exact hd
      · rw [show collapseWsAux b (a :: a2 :: as2) =
            a :: collapseWsAux false (a2 :: as2) from by simp [collapseWsAux, hws]]
        obtain ⟨d, hd, hdw⟩ := ih false c h2 hc
        refine ⟨d, ?_, hdw⟩
        have hne : collapseWsAux false (a2 :: as2) ≠ [] := by
          intro hnil
          rw [hnil] at hd
          simp at hd
        rw [getLast?_cons_of_ne_nil _ _ hne]
        exact hd

/-- A string whose whitespace consists of isolated single spaces is a fixed
point of the collapse. -/
theorem collapseWsAux_fix (l : List Char) :
    ∀ b, (∀ c ∈ l, isJsWs c = true → c = ' ') → List.Chain' noWsPair l →
      (b = true → ∀ c, l.head? = some c → isJsWs c = false) →
      collapseWsAux b l = l := by
  induction l with
  | nil => intro b _ _ _; rfl
  | cons a as ih =>
    intro b hsp hch hb
    by_cases hws : isJsWs a = true
    · have hb0 : b = false := by
        cases b with
        | false => rfl
        | true =>
          have hfa := hb rfl a List.head?_cons
          rw [hws] at hfa
          exact Bool.noConfusion hfa
      subst hb0
      have ha : a = ' ' := hsp a (List.mem_cons_self _ _) hws
      subst ha
      rw [show collapseWsAux false (' ' :: as) = ' ' :: collapseWsAux true as from by
        simp [collapseWsAux, hws]]
      congr 1
      apply ih true
      · intro c hcmem hcw
        exact hsp c (List.mem_cons_of_mem _ hcmem) hcw
      · exact (List.chain'_cons'.mp hch).2
      · intro _ c hcc
        have hpair := (List.chain'_cons'.mp hch).1 c (Option.mem_def.mpr hcc)
        exact hpair (by decide)
    · rw [show collapseWsAux b (a :: as) = a :: collapseWsAux false as from by
        simp [collapseWsAux, hws]]
      congr 1
      apply ih false
      · intro c hcmem hcw
        exact hsp c (List.mem_cons_of_mem _ hcmem) hcw
      · exact (List.chain'_cons'.mp hch).2
      · intro hff
        exact Bool.noConfusion hff

/-- The head surviving a left trim is non-whitespace. -/
theorem jsTrimLeft_head (l : List Char) :
    ∀ c, (jsTrimLeft l).head? = some c → isJsWs c = false := by
  induction l with
  | nil => intro c h; simp [jsTrimLeft] at h
  | cons a as ih =>
    intro c h
    by_cases hws : isJsWs a = true
    · rw [jsTrimLeft, List.dropWhile_cons, if_pos hws] at h
      exact ih c h
    · rw [jsTrimLeft, List.dropWhile_cons, if_neg hws, List.head?_cons] at h
      obtain rfl := Option.some.inj h
      simpa using hws

/-- A left trim fixes a string with a non-whitespace head. -/
theorem jsTrimLeft_eq_self (l : List Char)
    (h : ∀ c, l.head? = some c → isJsWs c = false) : jsTrimLeft l = l := by
  cases l with
  | nil => rfl
  | cons a as =>
    have ha := h a List.head?_cons
    rw [jsTrimLeft, List.dropWhile_cons, if_neg (by simp [ha])]

/-- A right trim only removes a suffix, so the result is a prefix. -/
theorem jsTrimRight_prefixOfSelf (l : List Char) : jsTrimRight l <+: l := by
  have hsuf : l.reverse.dropWhile isJsWs <:+ l.reverse :=
    List.dropWhile_suffix _
  have := List.reverse_prefix.mpr hsuf
  simpa [jsTrimRight] using this

/-- The last character surviving a right trim is non-whitespace. -/
theorem jsTrimRight_getLast (l : List Char) :
    ∀ c, (jsTrimRight l).getLast? = some c → isJsWs c = false := by
  intro c h
  rw [jsTrimRight, List.getLast?_reverse] at h
  exact jsTrimLeft_head l.reverse c h

/-- A right trim fixes a string whose last character is non-whitespace. -/
theorem jsTrimRight_eq_self (l : List Char)
    (h : ∀ c, l.getLast? = some c → isJsWs c = false) : jsTrimRight l = l := by
  have hdrop : jsTrimLeft l.reverse = l.reverse :=
    jsTrimLeft_eq_self l.reverse (fun c hc => h c (by rwa [List.head?_reverse] at hc))
  rw [jsTrimRight]
  rw [show l.reverse.dropWhile isJsWs = l.reverse from hdrop, List.reverse_reverse]

/-- The head of a right-trimmed string is a head of the original. -/
theorem jsTrimRight_head (l : List Char) (c : Char)
    (h : (jsTrimRight l).head? = some c) : l.head? = some c := by
  obtain ⟨t, ht⟩ := jsTrimRight_prefixOfSelf l
  cases hX : jsTrimRight l with
  | nil => rw [hX] at h; simp at h
  | cons x xs =>
    rw [hX, List.head?_cons] at h
    obtain rfl := Option.some.inj h
    rw [← ht, hX]
    simp

/-- The head surviving the full trim is non-whitespace. -/
theorem jsTrim_head (l : List Char) :
    ∀ c, (jsTrim l).head? = some c → isJsWs c = false := by
  intro c h
  exact jsTrimLeft_head l c (jsTrimRight_head (jsTrimLeft l) c h)

/-- The last character surviving the full trim is non-whitespace. -/
theorem jsTrim_getLast (l : List Char) :
    ∀ c, (jsTrim l).getLast? = some c → isJsWs c = false :=
  jsTrimRight_getLast (jsTrimLeft l)

/-- Trimming only removes characters. -/
theorem mem_jsTrim (l : List Char) (c : Char) (h : c ∈ jsTrim l) : c ∈ l := by
  have h1 : c ∈ jsTrimLeft l := (jsTrimRight_prefixOfSelf (jsTrimLeft l)).subset h
  exact (List.dropWhile_suffix isJsWs).subset h1

/-- Trimming never lengthens a string. -/
theorem jsTrim_length (l : List Char) : (jsTrim l).length ≤ l.length := by
  have h1 : (jsTrimRight (jsTrimLeft l)).length ≤ (jsTrimLeft l).length :=
    (jsTrimRight_prefixOfSelf (jsTrimLeft l)).sublist.length_le
  have h2 : (jsTrimLeft l).length ≤ l.length :=
    (List.dropWhile_suffix isJsWs).sublist.length_le
  exact le_trans h1 h2

/-- The sanitizer output never exceeds the length cap. -/
theorem sanitizeInputStr_length (s : List Char) (m : Nat) :
    (sanitizeInputStr s m).length ≤ m := by
  have h1 : ((s.take m).filter (fun c => !isDangerousChar c)).length ≤ m := by
    have := List.length_filter_le (fun c => !isDangerousChar c) (s.take m)
    have h2 : (s.take m).length ≤ m := by
      rw [List.length_take]
      exact min_le_left _ _
    omega
  have h3 := jsTrim_length ((s.take m).filter (fun c => !isDangerousChar c))
  have h4 := collapseWsAux_length
    (jsTrim ((s.take m).filter (fun c => !isDangerousChar c))) false
  calc (sanitizeInputStr s m).length
      = (collapseWsAux false
          (jsTrim ((s.take m).filter (fun c => !isDangerousChar c)))).length := rfl
    _ ≤ m := by omega

/-- Every character of the sanitizer output is harmless: whitespace only as
a single space, and never one of the stripped dangerous characters. -/
theorem sanitizeInputStr_chars (s : List Char) (m : Nat) :
    ∀ c ∈ sanitizeInputStr s m,
      (isJsWs c = true → c = ' ') ∧ isDangerousChar c = false := by
  intro c hc
  rcases mem_collapseWsAux _ false c hc with h1 | ⟨h2, h3⟩
  · subst h1
    exact ⟨fun _ => rfl, by decide⟩
  · refine ⟨fun hwc => absurd hwc (by simp [h3]), ?_⟩
    have hmem : c ∈ (s.take m).filter (fun c => !isDangerousChar c) :=
      mem_jsTrim _ c h2
    have := (List.mem_filter.mp hmem).2
    simpa using this

/-- The sanitizer output has no two adjacent whitespace characters. -/
theorem sanitizeInputStr_chain (s : List Char) (m : Nat) :
    List.Chain' noWsPair (sanitizeInputStr s m) :=
  chain_collapseWsAux _ false

/-- The sanitizer output starts with a non-whitespace character. -/
theorem sanitizeInputStr_head (s : List Char) (m : Nat) :
    ∀ c, (sanitizeInputStr s m).head? = some c → isJsWs c = false := by
  intro c hc
  have hth := jsTrim_head ((s.take m).filter (fun c => !isDangerousChar c))
  cases hX : jsTrim ((s.take m).filter (fun c => !isDangerousChar c)) with
  | nil =>
    have : sanitizeInputStr s m = [] := by
      show collapseWsAux false (jsTrim ((s.take m).filter
        (fun c => !isDangerousChar c))) = []
      rw [hX]
      rfl
    rw [this] at hc
    simp at hc
  | cons x xs =>
    have hxw : isJsWs x = false := hth x (by rw [hX]; exact List.head?_cons)
    have : sanitizeInputStr s m = x :: collapseWsAux false xs := by
      show collapseWsAux false (jsTrim ((s.take m).filter
        (fun c => !isDangerousChar c))) = _
      rw [hX]
      simp [collapseWsAux, hxw]
    rw [this, List.head?_cons] at hc
    obtain rfl := Option.some.inj hc
    exact hxw

/-- The sanitizer output ends with a non-whitespace character. -/
theorem sanitizeInputStr_getLast (s : List Char) (m : Nat) :
    ∀ c, (sanitizeInputStr s m).getLast? = some c → isJsWs c = false := by
  intro c hc
  cases hL : (jsTrim ((s.take m).filter (fun c => !isDangerousChar c))).getLast? with
  | none =>
    have hnil : jsTrim ((s.take m).filter (fun c => !isDangerousChar c)) = [] :=
      List.getLast?_eq_none_iff.mp hL
    have : sanitizeInputStr s m = [] := by
      show collapseWsAux false (jsTrim ((s.take m).filter
        (fun c => !isDangerousChar c))) = []
      rw [hnil]
      rfl
    rw [this] at hc
    simp at hc
  | some d =>
    have hdw : isJsWs d = false := jsTrim_getLast _ d hL
    obtain ⟨e, he, hew⟩ := collapseWsAux_getLast _ false d hL hdw
    have hc2 : (collapseWsAux false (jsTrim ((s.take m).filter
        (fun c => !isDangerousChar c)))).getLast? = some c := hc
    rw [he] at hc2
    obtain rfl := Option.some.inj hc2
    exact hew

/-- The frontend sanitizer pipeline is idempotent on strings. -/
theorem sanitizeInputStr_idem (s : List Char) (m : Nat) :
    sanitizeInputStr (sanitizeInputStr s m) m = sanitizeInputStr s m := by
  have htake : (sanitizeInputStr s m).take m = sanitizeInputStr s m :=
    List.take_of_length_le (sanitizeInputStr_length s m)
  have hfil : (sanitizeInputStr s m).filter (fun c => !isDangerousChar c) =
      sanitizeInputStr s m := by
    apply List.filter_eq_self.mpr
    intro a ha
    have := (sanitizeInputStr_chars s m a ha).2
    simp [this]
  have htl : jsTrimLeft (sanitizeInputStr s m) = sanitizeInputStr s m :=
    jsTrimLeft_eq_self _ (sanitizeInputStr_head s m)
  have htr : jsTrimRight (sanitizeInputStr s m) = sanitizeInputStr s m :=
    jsTrimRight_eq_self _ (sanitizeInputStr_getLast s m)
  have hcol : collapseWsAux false (sanitizeInputStr s m) = sanitizeInputStr s m := by
    apply collapseWsAux_fix
    · intro c hcmem hcw
      exact (sanitizeInputStr_chars s m c hcmem).1 hcw
    · exact sanitizeInputStr_chain s m
    · intro hff
      exact Bool.noConfusion hff
  show collapseWs (jsTrim (((sanitizeInputStr s m).take m).filter
    (fun c => !isDangerousChar c))) = sanitizeInputStr s m
  rw [htake, hfil]
  show collapseWsAux false (jsTrimRight (jsTrimLeft (sanitizeInputStr s m))) =
    sanitizeInputStr s m
  rw [htl, htr, hcol]

/-- Counterexample to C4 as stated: the server-side
`securityConfig.sanitizeInput` is not idempotent — one application maps the
string `&` to `&amp;`, a second maps it to `&amp;amp;`. -/
theorem server_sanitize_not_idempotent :
    serverSanitizeString ['&'] = "&amp;".toList ∧
      serverSanitizeString (serverSanitizeString ['&']) = "&amp;amp;".toList ∧
      serverSanitizeString (serverSanitizeString ['&']) ≠
        serverSanitizeString ['&'] := by
  decide

/-- C4 (amended): the frontend `sanitizeInput` is idempotent — for every
runtime value and every length cap, sanitizing twice equals sanitizing
once.  (The server-side `securityConfig.sanitizeInput` cited by the claim
is not idempotent; see the counterexample.) -/
theorem sanitizeInput_idempotent (v : JSValue) (m : Nat) :
    sanitizeInput (sanitizeInput v m) m = sanitizeInput v m := by
  cases v with
  | null => rfl
  | undef => rfl
  | bool b => simp [sanitizeInput, jsTruthy, jsIsString]
  | num n => simp [sanitizeInput, jsTruthy, jsIsString]
  | str s =>
    by_cases hs : s.isEmpty = true
    · simp [sanitizeInput, jsTruthy, hs]
    · by_cases hp : (sanitizeInputStr s m).isEmpty = true
      · simp [sanitizeInput, jsTruthy, jsIsString, hs, hp,
          List.isEmpty_iff.mp hp]
      · simp [sanitizeInput, jsTruthy, jsIsString, hs, hp,
          sanitizeInputStr_idem]

end TasksBoard
